import Mathlib

/-!
A verification development for the YAMLpp/Protein interpreter
(`yamlpp/core.py`, `yamlpp/util.py`, `protein/global_context.py`).

The interpreter core is embedded shallowly: the Python `Node` union
(`dict | list | str | int | bool | None`) becomes an inductive type,
the scope stack becomes explicit state passing, and every fallible
operation returns `Except`.  The tree walk of `Interpreter.process_node`
and its construct handlers are translated function by function; recursion
is made total with a fuel parameter (the Python recursion is unbounded,
e.g. through `handle_call`).

External collaborators that are not part of the repository (the Jinja2
template engine, `ast.literal_eval`, the ruamel/tomlkit/json dumpers,
the missing `yamlpp/stack.py` Stack class and `protein/util.py`) are
modelled from the specification; each such definition carries a doc
comment starting with `Modelled from the spec:`.

Python floats are outside the model (no claim touches them).
-/

namespace Yamlpp

/-- Node model: the value universe of the interpreter, translated from
the type alias `Node = Union[BlockNode, ListNode, str, int, float, bool, None]`
in `yamlpp/core.py` (floats omitted).  Mappings are ordered association
lists whose keys are themselves nodes (YAML mapping keys may be scalars
of any type); `hostFn` stands for an opaque host callable installed in
the base frame (for example `os.getenv`). -/
inductive Node where
  | null
  | bool (b : Bool)
  | int (n : Int)
  | str (s : String)
  | seq (items : List Node)
  | map (entries : List (Node × Node))
  | hostFn (name : String)

/-- Error categories, translated from `class Error(str, Enum)` in
`yamlpp/core.py`. -/
inductive ErrorKind where
  | VALIDATION
  | KEY
  | INDEX
  | ARGUMENTS
deriving DecidableEq

/-- Exceptions that can abort a walk.  `yamlpp ty msg` models a
`YAMLppError(node, err_type, message)`; the remaining constructors model
the Python exception classes raised by the interpreter or its
collaborators (`ValueError`, `TypeError`, `FileNotFoundError`, Jinja2's
`UndefinedError`).  `noFuel` is an artifact of the fuel-based embedding:
it marks a run that exceeded the fuel bound, not a Python behavior. -/
inductive Err where
  | yamlpp (ty : ErrorKind) (msg : String)
  | valueError (msg : String)
  | typeError (msg : String)
  | fileNotFound (msg : String)
  | jinjaUndefined (msg : String)
  | templateUnmodelled (s : String)
  | noFuel

-- --------------------------------------------------------------
-- Python value semantics: equality, truthiness, str()/repr()
-- --------------------------------------------------------------

mutual
/-- Python `==` on node values: structural, with the numeric
cross-equality `True == 1`, `False == 0`.  Mapping comparison is
modelled order-sensitively (Python dict equality ignores order; the
interpreter only ever compares scalar keys, where the two coincide). -/
def pyEq : Node → Node → Bool
  | .null, .null => true
  | .bool a, .bool b => a == b
  | .bool a, .int n => (if a then (1 : Int) else 0) == n
  | .int n, .bool a => (if a then (1 : Int) else 0) == n
  | .int a, .int b => a == b
  | .str a, .str b => a == b
  | .seq a, .seq b => pyEqL a b
  | .map a, .map b => pyEqM a b
  | .hostFn a, .hostFn b => a == b
  | _, _ => false

def pyEqL : List Node → List Node → Bool
  | [], [] => true
  | x :: xs, y :: ys => pyEq x y && pyEqL xs ys
  | _, _ => false

def pyEqM : List (Node × Node) → List (Node × Node) → Bool
  | [], [] => true
  | (k, v) :: xs, (k', v') :: ys => pyEq k k' && pyEq v v' && pyEqM xs ys
  | _, _ => false
end

/-- Python truthiness (`if params_block:` and friends). -/
def pyTruthy : Node → Bool
  | .null => false
  | .bool b => b
  | .int n => n != 0
  | .str s => s ≠ ""
  | .seq l => !l.isEmpty
  | .map m => !m.isEmpty
  | .hostFn _ => true

mutual
/-- Python `repr()` of a node value, used in error-message formatting. -/
def pyRepr : Node → String
  | .null => "None"
  | .bool b => if b then "True" else "False"
  | .int n => toString n
  | .str s => "\x27" ++ s ++ "\x27"
  | .seq l => "[" ++ pyReprL l ++ "]"
  | .map m => "\x7b" ++ pyReprM m ++ "\x7d"
  | .hostFn n => "<function " ++ n ++ ">"

def pyReprL : List Node → String
  | [] => ""
  | [x] => pyRepr x
  | x :: xs => pyRepr x ++ ", " ++ pyReprL xs

def pyReprM : List (Node × Node) → String
  | [] => ""
  | [(k, v)] => pyRepr k ++ ": " ++ pyRepr v
  | (k, v) :: xs => pyRepr k ++ ": " ++ pyRepr v ++ ", " ++ pyReprM xs
end

/-- Python `str()` of a node value (bare strings, `repr` for containers). -/
def pyStr : Node → String
  | .str s => s
  | v => pyRepr v

/-- Python `type(x).__name__` for message formatting. -/
def pyTypeName : Node → String
  | .null => "NoneType"
  | .bool _ => "bool"
  | .int _ => "int"
  | .str _ => "str"
  | .seq _ => "list"
  | .map _ => "dict"
  | .hostFn _ => "function"

-- --------------------------------------------------------------
-- Ordered-dict primitives (Python dict semantics on assoc lists)
-- --------------------------------------------------------------

/-- Python `d[key]` read on a mapping: first entry whose key compares
`==` to the requested key. -/
def pyLookup (entries : List (Node × Node)) (key : Node) : Option Node :=
  match entries with
  | [] => none
  | (k, v) :: rest => if pyEq k key then some v else pyLookup rest key

/-- Python `d[key] = value`: update the value in place if the key is
present (the original key object and its position are kept), otherwise
append the new entry at the end. -/
def dictInsert (entries : List (Node × Node)) (key value : Node) : List (Node × Node) :=
  match entries with
  | [] => [(key, value)]
  | (k, v) :: rest =>
    if pyEq k key then (k, value) :: rest
    else (k, v) :: dictInsert rest key value

/-- Python `dst.update(src)`: successive `dst[k] = v` for the entries of
`src`, in order. -/
def dictUpdate (dst src : List (Node × Node)) : List (Node × Node) :=
  src.foldl (fun d kv => dictInsert d kv.1 kv.2) dst

/-- Python membership `key in d` on a mapping (`==` against the keys). -/
def pyHasKey (entries : List (Node × Node)) (key : Node) : Bool :=
  match entries with
  | [] => false
  | (k, _) :: rest => pyEq k key || pyHasKey rest key

/-- Python iteration `for x in node`: a list yields its items, a mapping
its keys, a string its characters; scalars raise `TypeError`. -/
def iterElems : Node → Except Err (List Node)
  | .seq l => .ok l
  | .map m => .ok (m.map (·.1))
  | .str s => .ok (s.data.map (fun c => .str (String.mk [c])))
  | v => .error (.typeError ("\x27" ++ pyTypeName v ++ "\x27 object is not iterable"))

/-- Python `len()`. -/
def pyLen : Node → Except Err Nat
  | .seq l => .ok l.length
  | .map m => .ok m.length
  | .str s => .ok s.data.length
  | v => .error (.typeError ("object of type \x27" ++ pyTypeName v ++ "\x27 has no len()"))

-- --------------------------------------------------------------
-- ast.literal_eval model (used by evaluate_expression and dequote)
-- --------------------------------------------------------------

def isSpaceChar (c : Char) : Bool := c = ' ' || c = '\t' || c = '\n'

def isDigitChar (c : Char) : Bool := '0' ≤ c && c ≤ '9'

/-- Digits to a natural number, left to right. -/
def digitsToNat (acc : Nat) : List Char → Nat
  | [] => acc
  | c :: rest => digitsToNat (acc * 10 + (c.toNat - '0'.toNat)) rest

/-- Longest digit run at the head of the list, with the remainder. -/
def takeDigits : List Char → (List Char × List Char)
  | [] => ([], [])
  | c :: rest =>
    if isDigitChar c then
      let (ds, rem) := takeDigits rest
      (c :: ds, rem)
    else ([], c :: rest)

/-- Characters of a simple quoted string body, up to the closing quote. -/
def takeStringBody (q : Char) : List Char → Option (List Char × List Char)
  | [] => none
  | c :: rest =>
    if c = q then some ([], rest)
    else if c = '\\' then none
    else
      match takeStringBody q rest with
      | some (body, rem) => some (c :: body, rem)
      | none => none

/-- True when the list is all whitespace (a valid literal may carry
trailing whitespace). -/
def allSpaces : List Char → Bool
  | [] => true
  | c :: rest => isSpaceChar c && allSpaces rest

/-- Modelled from the spec: `ast.literal_eval` (Python standard library,
outside the repository), §4.E "the rendered text is attempted as a
literal".  The model covers the literal fragment exercised by the
programs under study: optionally signed integers, simple single- or
double-quoted strings without escapes, `True`, `False` and `None`, each
with surrounding whitespace.  Anything else, in particular any text
whose first non-space character is `#` (which starts a Python comment),
fails to parse. -/
def literal_eval (s : List Char) : Option Node :=
  match s.dropWhile isSpaceChar with
  | [] => none
  | c :: rest =>
    if c = '-' then
      match takeDigits rest with
      | ([], _) => none
      | (ds, rem) => if allSpaces rem then some (.int (-(digitsToNat 0 ds : Int))) else none
    else if isDigitChar c then
      match takeDigits (c :: rest) with
      | ([], _) => none
      | (ds, rem) => if allSpaces rem then some (.int (digitsToNat 0 ds : Int)) else none
    else if c = '\x27' ∨ c = '\x22' then
      match takeStringBody c rest with
      | some (body, rem) => if allSpaces rem then some (.str (String.mk body)) else none
      | none => none
    else
      match c :: rest with
      | 'T' :: 'r' :: 'u' :: 'e' :: rem => if allSpaces rem then some (.bool true) else none
      | 'F' :: 'a' :: 'l' :: 's' :: 'e' :: rem => if allSpaces rem then some (.bool false) else none
      | 'N' :: 'o' :: 'n' :: 'e' :: rem => if allSpaces rem then some (.null) else none
      | _ => none

-- --------------------------------------------------------------
-- Scope stack (frames) and interpreter state
-- --------------------------------------------------------------

/-- A frame of the lexical scope stack: an ordered name-to-value
mapping.  Values are nodes; function objects are stored as their raw
`.function` block node, exactly as `handle_function` stores
`entry.value`. -/
abbrev Frame := List (Node × Node)

/-- Modelled from the spec: the `Stack` class (`yamlpp/stack.py` is not
under `src/`); §4.D — `lookup(name)` walks frames innermost-first and
the first match wins. -/
def stackLookup (frames : List Frame) (key : Node) : Option Node :=
  match frames with
  | [] => none
  | f :: rest =>
    match pyLookup f key with
    | some v => some v
    | none => stackLookup rest key

/-- Modelled from the spec: `Stack.__setitem__` / `Stack.update` write
into the current top frame (§3, §4.D). -/
def stackSetTop (frames : List Frame) (key value : Node) : List Frame :=
  match frames with
  | [] => []
  | f :: rest => dictInsert f key value :: rest

/-- Modelled from the spec: `Stack.update(bindings)` merges a mapping
into the top frame (used by `handle_module`). -/
def stackUpdateTop (frames : List Frame) (bindings : Frame) : List Frame :=
  match frames with
  | [] => []
  | f :: rest => dictUpdate f bindings :: rest

/-- Interpreter state: the scope stack plus instrumentation.  `pushes`
and `pops` count the scope-stack operations performed during a walk
(the subject of the balance invariant); `written` logs the files
produced by `handle_export` as (path, rendered tree) pairs, standing in
for the actual file write. -/
structure St where
  frames : List Frame
  pushes : Nat
  pops : Nat
  written : List (String × Node)

/-- Evaluation context: the interpreter's source directory, and the
host filesystem visible to `.import` (filename to parsed YAML tree) and
to `.module` (filename to exported bindings), standing in for
`load_yaml` and `get_exports`. -/
structure Ctx where
  source_dir : String
  fs : List (String × Node)
  modules : List (String × Frame)

/-- `stack.push(frame)`: new innermost frame (and one push counted). -/
def pushFrame (f : Frame) (st : St) : St :=
  { st with frames := f :: st.frames, pushes := st.pushes + 1 }

/-- `stack.pop()`: drop the innermost frame (and one pop counted). -/
def popFrame (st : St) : St :=
  { st with frames := st.frames.tail, pops := st.pops + 1 }

/-- Result of a stateful step: an `Except` outcome paired with the state
in which the step ended (Python exceptions do not roll back the stack). -/
abbrev Res (α : Type) := Except Err α × St

/-- Sequencing of stateful steps; an error short-circuits, keeping the
state at the point of the raise. -/
def bindR {α β : Type} (r : Res α) (k : α → St → Res β) : Res β :=
  match r with
  | (.ok a, st) => k a st
  | (.error e, st) => (.error e, st)

-- --------------------------------------------------------------
-- Template expression evaluation (evaluate_expression)
-- --------------------------------------------------------------

def isIdentStart (c : Char) : Bool :=
  ('a' ≤ c && c ≤ 'z') || ('A' ≤ c && c ≤ 'Z') || c = '_'

def isIdentChar (c : Char) : Bool :=
  isIdentStart c || isDigitChar c

def isIdent : List Char → Bool
  | [] => false
  | c :: rest => isIdentStart c && rest.all isIdentChar

/-- True when the text contains a Jinja2 construct opener. -/
def hasJinjaMarker : List Char → Bool
  | [] => false
  | ['\x7b'] => false
  | '\x7b' :: c :: rest => c = '\x7b' || c = '%' || hasJinjaMarker (c :: rest)
  | _ :: rest => hasJinjaMarker rest

/-- Recognize a whole-string template of the shape
`\x7b\x7b name \x7d\x7d` and return the referenced name. -/
def parseWholeTemplate (s : List Char) : Option (List Char) :=
  match s with
  | '\x7b' :: '\x7b' :: rest =>
    let inner := rest.reverse
    match inner with
    | '\x7d' :: '\x7d' :: mid =>
      let name := ((mid.reverse.dropWhile isSpaceChar).reverse.dropWhile isSpaceChar).reverse
      if isIdent name then some name else none
    | _ => none
  | _ => none

/-- Modelled from the spec: the template sub-language collaborator
(§6 `render(text, name_to_value, filters) → text` with strict-undefined
semantics) composed with the typed re-parse of §4.E, as performed by
`Interpreter.evaluate_expression`.  The model covers the fragment the
studied programs use: a whole-string reference to a single name renders
to that name's value (the render-to-text plus `literal_eval` round trip
of the source), a missing name raises Jinja2's `UndefinedError`, and
template-free text goes through `literal_eval` with the raw string as
fallback.  Other template shapes are outside the model and surface as
`templateUnmodelled`. -/
def renderEvalString (frames : List Frame) (s : String) : Except Err Node :=
  if hasJinjaMarker s.data then
    match parseWholeTemplate s.data with
    | some name =>
      match stackLookup frames (.str (String.mk name)) with
      | some v => .ok v
      | none => .error (.jinjaUndefined ("\x27" ++ String.mk name ++ "\x27 is undefined"))
    | none => .error (.templateUnmodelled s)
  else
    match literal_eval s.data with
    | some v => .ok v
    | none => .ok (.str s)

/-- `Interpreter.evaluate_expression`: a string is rendered against the
stack and re-parsed as a literal; a non-string is passed through
`repr()` and `literal_eval`, which round-trips it unchanged. -/
def evaluate_expression (frames : List Frame) (expr : Node) : Except Err Node :=
  match expr with
  | .str s => renderEvalString frames s
  | v => .ok v

-- --------------------------------------------------------------
-- MappingEntry (one dispatch unit)
-- --------------------------------------------------------------

/-- `class MappingEntry`: a key-value pair handed to a handler. -/
structure MappingEntry where
  key : Node
  value : Node

/-- `MappingEntry.get(key, strict=True)` / `entry[key]`: strict child
access on the entry's value; a missing key or index raises a
`KeyNotFound` `YAMLppError`, a scalar value raises at the type check. -/
def entryGet (e : MappingEntry) (key : Node) : Except Err Node :=
  match e.value with
  | .map entries =>
    match pyLookup entries key with
    | some v => .ok v
    | none =>
      .error (.yamlpp .KEY ("Structure \x27" ++ pyStr e.key ++ "\x27 does not contain \x27" ++ pyStr key ++ "\x27"))
  | .seq items =>
    match key with
    | .int n =>
      if h : 0 ≤ n ∧ n.toNat < items.length then .ok (items.get ⟨n.toNat, h.2⟩)
      else if 0 ≤ n + items.length ∧ n < 0 then .ok (items.getD (n + items.length).toNat .null)
      else .error (.yamlpp .KEY ("Sequence in \x27" ++ pyStr e.key ++ "\x27 does not contain " ++ pyStr key ++ "nth element"))
    | _ => .error (.typeError "list indices must be integers or slices, not str")
  | v => .error (.typeError ("Key " ++ pyStr e.key ++ " points on a scalar or non-recognized type (" ++ pyTypeName v ++ ")"))

/-- `MappingEntry.get(key)` in non-strict mode: a missing child yields
Python `None`. -/
def entryGetD (e : MappingEntry) (key : Node) : Node :=
  match e.value with
  | .map entries => (pyLookup entries key).getD .null
  | .seq items =>
    match key with
    | .int n => if 0 ≤ n then items.getD n.toNat .null else .null
    | _ => .null
  | _ => .null

-- --------------------------------------------------------------
-- Result combination in the Mapping dispatcher
-- --------------------------------------------------------------

/-- One step of the result-combination loop of `process_node` for a
Mapping node: `None` results are skipped, mapping results are merged
into the accumulating result-mapping, list results extend the
accumulating result-list and scalar results are appended to it. -/
def combineResult (acc : List (Node × Node) × List Node) (r : Node) :
    List (Node × Node) × List Node :=
  match r with
  | .null => acc
  | .map m => (dictUpdate acc.1 m, acc.2)
  | .seq l => (acc.1, acc.2 ++ l)
  | v => (acc.1, acc.2 ++ [v])

/-- The return decision at the end of the Mapping dispatcher: the
result-mapping is returned when non-empty, else the result-list when
non-empty, else `None`. -/
def finalizeResults (acc : List (Node × Node) × List Node) : Node :=
  if !acc.1.isEmpty then .map acc.1
  else if !acc.2.isEmpty then .seq acc.2
  else .null

/-- Python `x is None`. -/
def pyIsNone : Node → Bool
  | .null => true
  | _ => false

/-- `os.path.join(a, b)` for the cases the interpreter uses: an absolute
second component replaces the first, otherwise the components are joined
with a separator. -/
def pathJoin (a b : String) : String :=
  match b.data with
  | '/' :: _ => b
  | _ => a ++ "/" ++ b

/-- Lookup in a string-keyed table (the modelled filesystem). -/
def lookupStr {α : Type} (l : List (String × α)) (k : String) : Option α :=
  match l with
  | [] => none
  | (a, v) :: rest => if a = k then some v else lookupStr rest k

-- --------------------------------------------------------------
-- The tree walk: Interpreter.process_node and its handlers
-- --------------------------------------------------------------

/-
The walk is translated with a fuel parameter: every mutual-recursive
call steps the fuel down once, so the recursion is structural on the
fuel and exhaustion surfaces as the artificial `Err.noFuel`.  The jinja
filters stack, which `process_node` pushes and pops in lockstep with the
scope stack for a truthy `.context` block, is not modelled; the balance
claims under study are about the scope stack.
-/

mutual
/-- `Interpreter.process_node`: dispatch a node to the appropriate
handler.  `None` returns `None`; a string is evaluated as a template
expression (re-wrapping Jinja2 undefined-name errors in `ValueError`);
a Mapping first processes a truthy `.context` block into a new pushed
frame, then folds the handler results of its entries and pops; a
Sequence processes its items and drops the `None` results; any other
scalar is returned unchanged. -/
def process_node : Nat → Ctx → Node → St → Res Node
  | 0, _, _, st => (.error .noFuel, st)
  | fuel + 1, ctx, node, st =>
    match node with
    | .null => (.ok .null, st)
    | .str s =>
      match evaluate_expression st.frames (.str s) with
      | .ok v => (.ok v, st)
      | .error (.jinjaUndefined m) =>
        (.error (.valueError ("Variable error in string node \x27" ++ s ++ "\x27: " ++ m)), st)
      | .error err => (.error err, st)
    | .map entries =>
      let ctxBlock := (pyLookup entries (.str ".context")).getD .null
      if pyTruthy ctxBlock then
        bindR (get_scope fuel ctx ctxBlock st) fun newScope st1 =>
        bindR (process_entries fuel ctx entries ([], []) (pushFrame newScope st1)) fun acc st2 =>
        (.ok (finalizeResults acc), popFrame st2)
      else
        bindR (process_entries fuel ctx entries ([], []) st) fun acc st1 =>
        (.ok (finalizeResults acc), st1)
    | .seq items =>
      bindR (process_list fuel ctx items st) fun rs st1 =>
      let kept := rs.filter (fun r => !pyIsNone r)
      (.ok (if kept.isEmpty then .null else .seq kept), st1)
    | v => (.ok v, st)

/-- The element loop of the Sequence branch of `process_node`. -/
def process_list : Nat → Ctx → List Node → St → Res (List Node)
  | 0, _, _, st => (.error .noFuel, st)
  | fuel + 1, ctx, items, st =>
    match items with
    | [] => (.ok [], st)
    | x :: rest =>
      bindR (process_node fuel ctx x st) fun r st1 =>
      bindR (process_list fuel ctx rest st1) fun rs st2 =>
      (.ok (r :: rs), st2)

/-- `Interpreter.get_scope`: evaluate a parameters block into a new
frame; a non-mapping block raises `ValueError`. -/
def get_scope : Nat → Ctx → Node → St → Res Frame
  | 0, _, _, st => (.error .noFuel, st)
  | fuel + 1, ctx, params, st =>
    match params with
    | .map items => get_scope_items fuel ctx items [] st
    | v => (.error (.valueError ("A parameter block must be a dictionary found: " ++ pyTypeName v)), st)

/-- The entry loop of `get_scope`: each value is processed and bound. -/
def get_scope_items : Nat → Ctx → List (Node × Node) → Frame → St → Res Frame
  | 0, _, _, _, st => (.error .noFuel, st)
  | fuel + 1, ctx, items, acc, st =>
    match items with
    | [] => (.ok acc, st)
    | (k, v) :: rest =>
      bindR (process_node fuel ctx v st) fun r st1 =>
      get_scope_items fuel ctx rest (dictInsert acc k r) st1

/-- The key loop of the Mapping branch of `process_node`: each entry is
dispatched and its result combined into the two accumulators. -/
def process_entries : Nat → Ctx → List (Node × Node) →
    (List (Node × Node) × List Node) → St → Res (List (Node × Node) × List Node)
  | 0, _, _, _, st => (.error .noFuel, st)
  | fuel + 1, ctx, entries, acc, st =>
    match entries with
    | [] => (.ok acc, st)
    | (k, v) :: rest =>
      bindR (dispatch fuel ctx k v st) fun r st1 =>
      process_entries fuel ctx rest (combineResult acc r) st1

/-- The key comparison chain of the Mapping branch of `process_node`:
a `.context` key contributes nothing (it was consumed before the loop),
the dotted construct keys go to their handlers, and a normal key wraps
the processed value as a one-entry mapping. -/
def dispatch : Nat → Ctx → Node → Node → St → Res Node
  | 0, _, _, _, st => (.error .noFuel, st)
  | fuel + 1, ctx, key, value, st =>
    let entry : MappingEntry := ⟨key, value⟩
    if pyEq key (.str ".context") then (.ok .null, st)
    else if pyEq key (.str ".do") then handle_do fuel ctx entry st
    else if pyEq key (.str ".foreach") then handle_foreach fuel ctx entry st
    else if pyEq key (.str ".switch") then handle_switch fuel ctx entry st
    else if pyEq key (.str ".if") then handle_if fuel ctx entry st
    else if pyEq key (.str ".import") then handle_import fuel ctx entry st
    else if pyEq key (.str ".module") then handle_module fuel ctx entry st
    else if pyEq key (.str ".function") then handle_function fuel ctx entry st
    else if pyEq key (.str ".call") then handle_call fuel ctx entry st
    else if pyEq key (.str ".export") then handle_export fuel ctx entry st
    else
      bindR (process_node fuel ctx value st) fun r st1 =>
      (.ok (.map [(key, r)]), st1)

/-- `Interpreter.handle_do`: process the instructions in order and
collect every result (including `None` results) into a list. -/
def handle_do : Nat → Ctx → MappingEntry → St → Res Node
  | 0, _, _, st => (.error .noFuel, st)
  | fuel + 1, ctx, e, st =>
    match iterElems e.value with
    | .error err => (.error err, st)
    | .ok items =>
      bindR (do_items fuel ctx items [] st) fun rs st1 =>
      (.ok (.seq rs), st1)

/-- The instruction loop of `handle_do`. -/
def do_items : Nat → Ctx → List Node → List Node → St → Res (List Node)
  | 0, _, _, _, st => (.error .noFuel, st)
  | fuel + 1, ctx, items, acc, st =>
    match items with
    | [] => (.ok acc, st)
    | x :: rest =>
      bindR (process_node fuel ctx x st) fun r st1 =>
      do_items fuel ctx rest (acc ++ [r]) st1

/-- `Interpreter.handle_foreach`: unpack `.values` into a variable name
and an iterable expression, evaluate the expression, and run the body
once per element with a frame binding the variable pushed around it. -/
def handle_foreach : Nat → Ctx → MappingEntry → St → Res Node
  | 0, _, _, st => (.error .noFuel, st)
  | fuel + 1, ctx, e, st =>
    match entryGet e (.str ".values") with
    | .error err => (.error err, st)
    | .ok valuesNode =>
      match iterElems valuesNode with
      | .error _ => (.error (.typeError "cannot unpack non-iterable object"), st)
      | .ok vs =>
        match vs with
        | [varName, iterExpr] =>
          match evaluate_expression st.frames iterExpr with
          | .error err => (.error err, st)
          | .ok result =>
            match iterElems result with
            | .error err => (.error err, st)
            | .ok items =>
              bindR (foreach_items fuel ctx e varName items [] st) fun rs st1 =>
              (.ok (.seq rs), st1)
        | l =>
          (.error (.valueError (if l.length < 2 then
            "not enough values to unpack (expected 2, got " ++ toString l.length ++ ")"
          else "too many values to unpack (expected 2)")), st)

/-- The iteration loop of `handle_foreach`: the frame is pushed, then
`.do` is read strictly from the entry (an error here, as everywhere in
the loop body before the pop, leaves the pushed frame behind), the body
is processed and the frame popped. -/
def foreach_items : Nat → Ctx → MappingEntry → Node → List Node → List Node → St → Res (List Node)
  | 0, _, _, _, _, _, st => (.error .noFuel, st)
  | fuel + 1, ctx, e, varName, items, acc, st =>
    match items with
    | [] => (.ok acc, st)
    | item :: rest =>
      let st1 := pushFrame [(varName, item)] st
      match entryGet e (.str ".do") with
      | .error err => (.error err, st1)
      | .ok doNode =>
        bindR (process_node fuel ctx doNode st1) fun r st2 =>
        foreach_items fuel ctx e varName rest (acc ++ [r]) (popFrame st2)

/-- `Interpreter.handle_switch`: evaluate `.expr`, test it by value
equality against the keys of `.cases` (Python `in`), process the
matched case, and otherwise process `cases.get(".default")` — a
`.default` looked up inside the `.cases` mapping, `None` (and hence a
dropped entry) when absent there. -/
def handle_switch : Nat → Ctx → MappingEntry → St → Res Node
  | 0, _, _, st => (.error .noFuel, st)
  | fuel + 1, ctx, e, st =>
    match entryGet e (.str ".expr") with
    | .error err => (.error err, st)
    | .ok expr =>
      match evaluate_expression st.frames expr with
      | .error err => (.error err, st)
      | .ok exprValue =>
        match entryGet e (.str ".cases") with
        | .error err => (.error err, st)
        | .ok cases =>
          match cases with
          | .map cs =>
            if pyHasKey cs exprValue then
              process_node fuel ctx ((pyLookup cs exprValue).getD .null) st
            else
              process_node fuel ctx ((pyLookup cs (.str ".default")).getD .null) st
          | .seq _ => (.error (.typeError "switch over a sequence of cases is outside the model"), st)
          | v => (.error (.typeError ("argument of type \x27" ++ pyTypeName v ++ "\x27 is not iterable")), st)

/-- `Interpreter.handle_if`: evaluate `.cond`, process `.then` when
truthy and the (optionally absent) `.else` otherwise. -/
def handle_if : Nat → Ctx → MappingEntry → St → Res Node
  | 0, _, _, st => (.error .noFuel, st)
  | fuel + 1, ctx, e, st =>
    match entryGet e (.str ".cond") with
    | .error err => (.error err, st)
    | .ok cond =>
      match evaluate_expression st.frames cond with
      | .error err => (.error err, st)
      | .ok r =>
        if pyTruthy r then
          match entryGet e (.str ".then") with
          | .error err => (.error err, st)
          | .ok thenNode => process_node fuel ctx thenNode st
        else
          process_node fuel ctx (entryGetD e (.str ".else")) st

/-- `Interpreter.handle_import`: evaluate the path, resolve it against
the source directory, load the file from the modelled filesystem
(`load_yaml` raises `FileNotFoundError` for a missing file) and process
its root with the current stack. -/
def handle_import : Nat → Ctx → MappingEntry → St → Res Node
  | 0, _, _, st => (.error .noFuel, st)
  | fuel + 1, ctx, e, st =>
    match evaluate_expression st.frames e.value with
    | .error err => (.error err, st)
    | .ok fn =>
      match fn with
      | .str f =>
        let full := pathJoin ctx.source_dir f
        match lookupStr ctx.fs full with
        | none => (.error (.fileNotFound ("YAML file \x27" ++ full ++ "\x27 does not exist")), st)
        | some data => process_node fuel ctx data st
      | v => (.error (.typeError ("join() argument must be str, not \x27" ++ pyTypeName v ++ "\x27")), st)

/-- `Interpreter.handle_module`: evaluate the path, obtain the module's
exported bindings (`get_exports`, from the modelled module table) and
merge them into the current top frame; the filter-table merge is not
modelled.  Returns `None`. -/
def handle_module : Nat → Ctx → MappingEntry → St → Res Node
  | 0, _, _, st => (.error .noFuel, st)
  | _fuel + 1, ctx, e, st =>
    match evaluate_expression st.frames e.value with
    | .error err => (.error err, st)
    | .ok fn =>
      match fn with
      | .str f =>
        let full := pathJoin ctx.source_dir f
        match lookupStr ctx.modules full with
        | none => (.error (.fileNotFound ("Module \x27" ++ full ++ "\x27 does not exist")), st)
        | some vars => (.ok .null, { st with frames := stackUpdateTop st.frames vars })
      | v => (.error (.typeError ("join() argument must be str, not \x27" ++ pyTypeName v ++ "\x27")), st)

/-- `Interpreter.handle_function`: read `.name` and store the whole
function block under that name in the stack (the assignment goes to the
top frame); the body is not evaluated.  Returns `None`. -/
def handle_function : Nat → Ctx → MappingEntry → St → Res Node
  | 0, _, _, st => (.error .noFuel, st)
  | _fuel + 1, _ctx, e, st =>
    match entryGet e (.str ".name") with
    | .error err => (.error err, st)
    | .ok name => (.ok .null, { st with frames := stackSetTop st.frames name e.value })

/-- `Interpreter.handle_call`: look the function up in the stack
(`KeyNotFound` when absent), check the argument count against the
formal arguments (`ArgumentMismatch` on difference), bind the raw
argument nodes to the formal names, and process a copy of the
function's `.do` block with the bindings installed as its `.context`. -/
def handle_call : Nat → Ctx → MappingEntry → St → Res Node
  | 0, _, _, st => (.error .noFuel, st)
  | fuel + 1, ctx, e, st =>
    match entryGet e (.str ".name") with
    | .error err => (.error err, st)
    | .ok name =>
      match stackLookup st.frames name with
      | none => (.error (.yamlpp .KEY ("Function \x27" ++ pyStr name ++ "\x27 not found!")), st)
      | some fnVal =>
        let function : MappingEntry := ⟨name, fnVal⟩
        match entryGet function (.str ".args") with
        | .error err => (.error err, st)
        | .ok formalArgs =>
          match entryGet e (.str ".args") with
          | .error err => (.error err, st)
          | .ok args =>
            match pyLen args with
            | .error err => (.error err, st)
            | .ok lenA =>
              match pyLen formalArgs with
              | .error err => (.error err, st)
              | .ok lenF =>
                if lenA ≠ lenF then
                  (.error (.yamlpp .ARGUMENTS ("No of arguments not matching, expected " ++
                    toString lenF ++ ", found " ++ toString lenA)), st)
                else
                  match iterElems formalArgs, iterElems args with
                  | .ok fAs, .ok aAs =>
                    let assigned := (List.zip fAs aAs).foldl (fun d kv => dictInsert d kv.1 kv.2) []
                    match entryGet function (.str ".do") with
                    | .error err => (.error err, st)
                    | .ok actions =>
                      match actions with
                      | .map acts =>
                        let new_block := dictInsert acts (.str ".context") (.map assigned)
                        process_node fuel ctx (.map new_block) st
                      | v => (.error (.typeError ("\x27" ++ pyTypeName v ++
                          "\x27 object does not support item assignment")), st)
                  | _, _ => (.error (.typeError "zip argument is not iterable"), st)

/-- `Interpreter.handle_export`: evaluate `.filename`, join it to the
source directory with `os.path.join` (no canonicalization and no
containment check), process `.content`, serialize (`to_yaml`, external)
and write — the write is logged as a (path, tree) pair.  Returns
`None`. -/
def handle_export : Nat → Ctx → MappingEntry → St → Res Node
  | 0, _, _, st => (.error .noFuel, st)
  | fuel + 1, ctx, e, st =>
    match entryGet e (.str ".filename") with
    | .error err => (.error err, st)
    | .ok fnNode =>
      match evaluate_expression st.frames fnNode with
      | .error err => (.error err, st)
      | .ok fn =>
        match fn with
        | .str f =>
          let full := pathJoin ctx.source_dir f
          match entryGet e (.str ".content") with
          | .error err => (.error err, st)
          | .ok content =>
            bindR (process_node fuel ctx content st) fun tree st1 =>
            (.ok .null, { st1 with written := st1.written ++ [(full, tree)] })
        | v => (.error (.typeError ("join() argument must be str, not \x27" ++ pyTypeName v ++ "\x27")), st)
end

-- --------------------------------------------------------------
-- Push/pop balance of the walk (claim C2)
-- --------------------------------------------------------------

/-- A stateful step is balanced when, on a successful (`ok`) outcome,
the number of pushes it performed equals the number of pops. -/
def BalFun {α : Type} (f : St → Res α) : Prop :=
  ∀ st a st', f st = (.ok a, st') → st'.pushes + st.pops = st.pushes + st'.pops

theorem bindR_eq_ok {α β : Type} {r : Res α} {k : α → St → Res β} {b : β} {st' : St}
    (h : bindR r k = (.ok b, st')) :
    ∃ a st1, r = (.ok a, st1) ∧ k a st1 = (.ok b, st') := by
  obtain ⟨e, s⟩ := r
  cases e with
  | ok a => exact ⟨a, s, rfl, h⟩
  | error err => simp [bindR] at h

theorem bal_process_node_step (n : Nat)
    (ihGS : ∀ ctx p, BalFun (get_scope n ctx p))
    (ihPE : ∀ ctx es acc, BalFun (process_entries n ctx es acc))
    (ihPL : ∀ ctx l, BalFun (process_list n ctx l)) :
    ∀ ctx node, BalFun (process_node (n + 1) ctx node) := by
  intro ctx node st a st' h
  cases node with
  | null => simp only [process_node] at h; cases h; omega
  | str s =>
    simp only [process_node] at h
    split at h
    · cases h; omega
    · simp at h
    · simp at h
  | map entries =>
    simp only [process_node] at h
    split at h
    · obtain ⟨ns, s1, h1, h2⟩ := bindR_eq_ok h
      obtain ⟨acc, s2, h3, h4⟩ := bindR_eq_ok h2
      have b1 := ihGS _ _ _ _ _ h1
      have b2 := ihPE _ _ _ _ _ _ h3
      cases h4
      simp only [pushFrame, popFrame] at b2 ⊢
      omega
    · obtain ⟨acc, s1, h1, h2⟩ := bindR_eq_ok h
      have b1 := ihPE _ _ _ _ _ _ h1
      cases h2
      omega
  | seq items =>
    simp only [process_node] at h
    obtain ⟨rs, s1, h1, h2⟩ := bindR_eq_ok h
    have b1 := ihPL _ _ _ _ _ h1
    cases h2
    omega
  | int m => simp only [process_node] at h; cases h; omega
  | bool b => simp only [process_node] at h; cases h; omega
  | hostFn f => simp only [process_node] at h; cases h; omega

theorem bal_process_list_step (n : Nat)
    (ihPN : ∀ ctx node, BalFun (process_node n ctx node))
    (ihPL : ∀ ctx l, BalFun (process_list n ctx l)) :
    ∀ ctx l, BalFun (process_list (n + 1) ctx l) := by
  intro ctx l st a st' h
  cases l with
  | nil => simp only [process_list] at h; cases h; omega
  | cons x rest =>
    simp only [process_list] at h
    obtain ⟨r, s1, h1, h2⟩ := bindR_eq_ok h
    obtain ⟨rs, s2, h3, h4⟩ := bindR_eq_ok h2
    have b1 := ihPN _ _ _ _ _ h1
    have b2 := ihPL _ _ _ _ _ h3
    cases h4
    omega

theorem bal_get_scope_step (n : Nat)
    (ihGSI : ∀ ctx items acc, BalFun (get_scope_items n ctx items acc)) :
    ∀ ctx p, BalFun (get_scope (n + 1) ctx p) := by
  intro ctx p st a st' h
  cases p <;> simp only [get_scope] at h <;> first
    | (exact ihGSI _ _ _ _ _ _ h)
    | simp at h

theorem bal_get_scope_items_step (n : Nat)
    (ihPN : ∀ ctx node, BalFun (process_node n ctx node))
    (ihGSI : ∀ ctx items acc, BalFun (get_scope_items n ctx items acc)) :
    ∀ ctx items acc, BalFun (get_scope_items (n + 1) ctx items acc) := by
  intro ctx items acc st a st' h
  cases items with
  | nil => simp only [get_scope_items] at h; cases h; omega
  | cons kv rest =>
    obtain ⟨k, v⟩ := kv
    simp only [get_scope_items] at h
    obtain ⟨r, s1, h1, h2⟩ := bindR_eq_ok h
    have b1 := ihPN _ _ _ _ _ h1
    have b2 := ihGSI _ _ _ _ _ _ h2
    omega

theorem bal_process_entries_step (n : Nat)
    (ihDP : ∀ ctx k v, BalFun (dispatch n ctx k v))
    (ihPE : ∀ ctx es acc, BalFun (process_entries n ctx es acc)) :
    ∀ ctx es acc, BalFun (process_entries (n + 1) ctx es acc) := by
  intro ctx es acc st a st' h
  cases es with
  | nil => simp only [process_entries] at h; cases h; omega
  | cons kv rest =>
    obtain ⟨k, v⟩ := kv
    simp only [process_entries] at h
    obtain ⟨r, s1, h1, h2⟩ := bindR_eq_ok h
    have b1 := ihDP _ _ _ _ _ _ h1
    have b2 := ihPE _ _ _ _ _ _ h2
    omega

set_option maxHeartbeats 1600000 in
theorem bal_dispatch_step (n : Nat)
    (ihPN : ∀ ctx node, BalFun (process_node n ctx node))
    (ihDO : ∀ ctx e, BalFun (handle_do n ctx e))
    (ihFE : ∀ ctx e, BalFun (handle_foreach n ctx e))
    (ihSW : ∀ ctx e, BalFun (handle_switch n ctx e))
    (ihIF : ∀ ctx e, BalFun (handle_if n ctx e))
    (ihIM : ∀ ctx e, BalFun (handle_import n ctx e))
    (ihMO : ∀ ctx e, BalFun (handle_module n ctx e))
    (ihFN : ∀ ctx e, BalFun (handle_function n ctx e))
    (ihCA : ∀ ctx e, BalFun (handle_call n ctx e))
    (ihEX : ∀ ctx e, BalFun (handle_export n ctx e)) :
    ∀ ctx k v, BalFun (dispatch (n + 1) ctx k v) := by
  intro ctx k v st a st' h
  simp only [dispatch] at h
  split at h
  · cases h; omega
  split at h
  · exact ihDO _ _ _ _ _ h
  split at h
  · exact ihFE _ _ _ _ _ h
  split at h
  · exact ihSW _ _ _ _ _ h
  split at h
  · exact ihIF _ _ _ _ _ h
  split at h
  · exact ihIM _ _ _ _ _ h
  split at h
  · exact ihMO _ _ _ _ _ h
  split at h
  · exact ihFN _ _ _ _ _ h
  split at h
  · exact ihCA _ _ _ _ _ h
  split at h
  · exact ihEX _ _ _ _ _ h
  obtain ⟨r, s1, h1, h2⟩ := bindR_eq_ok h
  have b1 := ihPN _ _ _ _ _ h1
  cases h2
  omega

theorem bal_handle_do_step (n : Nat)
    (ihDOI : ∀ ctx items acc, BalFun (do_items n ctx items acc)) :
    ∀ ctx e, BalFun (handle_do (n + 1) ctx e) := by
  intro ctx e st a st' h
  simp only [handle_do] at h
  split at h
  · simp at h
  · obtain ⟨rs, s1, h1, h2⟩ := bindR_eq_ok h
    have b1 := ihDOI _ _ _ _ _ _ h1
    cases h2
    omega

theorem bal_do_items_step (n : Nat)
    (ihPN : ∀ ctx node, BalFun (process_node n ctx node))
    (ihDOI : ∀ ctx items acc, BalFun (do_items n ctx items acc)) :
    ∀ ctx items acc, BalFun (do_items (n + 1) ctx items acc) := by
  intro ctx items acc st a st' h
  cases items with
  | nil => simp only [do_items] at h; cases h; omega
  | cons x rest =>
    simp only [do_items] at h
    obtain ⟨r, s1, h1, h2⟩ := bindR_eq_ok h
    have b1 := ihPN _ _ _ _ _ h1
    have b2 := ihDOI _ _ _ _ _ _ h2
    omega

theorem bal_handle_foreach_step (n : Nat)
    (ihFEI : ∀ ctx e varName items acc, BalFun (foreach_items n ctx e varName items acc)) :
    ∀ ctx e, BalFun (handle_foreach (n + 1) ctx e) := by
  intro ctx e st a st' h
  simp only [handle_foreach] at h
  split at h
  · simp at h
  split at h
  · simp at h
  split at h
  case _ varName iterExpr =>
    split at h
    · simp at h
    split at h
    · simp at h
    obtain ⟨rs, s1, h1, h2⟩ := bindR_eq_ok h
    have b1 := ihFEI _ _ _ _ _ _ _ _ h1
    cases h2
    omega
  · simp at h

theorem bal_foreach_items_step (n : Nat)
    (ihPN : ∀ ctx node, BalFun (process_node n ctx node))
    (ihFEI : ∀ ctx e varName items acc, BalFun (foreach_items n ctx e varName items acc)) :
    ∀ ctx e varName items acc, BalFun (foreach_items (n + 1) ctx e varName items acc) := by
  intro ctx e varName items acc st a st' h
  cases items with
  | nil => simp only [foreach_items] at h; cases h; omega
  | cons item rest =>
    simp only [foreach_items] at h
    split at h
    · simp at h
    obtain ⟨r, s2, h1, h2⟩ := bindR_eq_ok h
    have b1 := ihPN _ _ _ _ _ h1
    have b2 := ihFEI _ _ _ _ _ _ _ _ h2
    simp only [pushFrame, popFrame] at b1 b2
    omega

theorem bal_handle_switch_step (n : Nat)
    (ihPN : ∀ ctx node, BalFun (process_node n ctx node)) :
    ∀ ctx e, BalFun (handle_switch (n + 1) ctx e) := by
  intro ctx e st a st' h
  simp only [handle_switch] at h
  split at h
  · simp at h
  split at h
  · simp at h
  split at h
  · simp at h
  split at h
  · split at h
    · exact ihPN _ _ _ _ _ h
    · exact ihPN _ _ _ _ _ h
  · simp at h
  · simp at h

theorem bal_handle_if_step (n : Nat)
    (ihPN : ∀ ctx node, BalFun (process_node n ctx node)) :
    ∀ ctx e, BalFun (handle_if (n + 1) ctx e) := by
  intro ctx e st a st' h
  simp only [handle_if] at h
  split at h
  · simp at h
  split at h
  · simp at h
  split at h
  · split at h
    · simp at h
    · exact ihPN _ _ _ _ _ h
  · exact ihPN _ _ _ _ _ h

theorem bal_handle_import_step (n : Nat)
    (ihPN : ∀ ctx node, BalFun (process_node n ctx node)) :
    ∀ ctx e, BalFun (handle_import (n + 1) ctx e) := by
  intro ctx e st a st' h
  simp only [handle_import] at h
  split at h
  · simp at h
  split at h
  case _ f =>
    split at h
    · simp at h
    · exact ihPN _ _ _ _ _ h
  · simp at h

theorem bal_handle_module_step (n : Nat) :
    ∀ ctx e, BalFun (handle_module (n + 1) ctx e) := by
  intro ctx e st a st' h
  simp only [handle_module] at h
  split at h
  · simp at h
  split at h
  case _ f =>
    split at h
    · simp at h
    · cases h; dsimp only
  · simp at h

theorem bal_handle_function_step (n : Nat) :
    ∀ ctx e, BalFun (handle_function (n + 1) ctx e) := by
  intro ctx e st a st' h
  simp only [handle_function] at h
  split at h
  · simp at h
  · cases h; dsimp only

theorem bal_handle_call_step (n : Nat)
    (ihPN : ∀ ctx node, BalFun (process_node n ctx node)) :
    ∀ ctx e, BalFun (handle_call (n + 1) ctx e) := by
  intro ctx e st a st' h
  simp only [handle_call] at h
  split at h
  · simp at h
  split at h
  · simp at h
  split at h
  · simp at h
  split at h
  · simp at h
  split at h
  · simp at h
  split at h
  · simp at h
  split at h
  · simp at h
  split at h
  · split at h
    · simp at h
    split at h
    · exact ihPN _ _ _ _ _ h
    · simp at h
  · simp at h

theorem bal_handle_export_step (n : Nat)
    (ihPN : ∀ ctx node, BalFun (process_node n ctx node)) :
    ∀ ctx e, BalFun (handle_export (n + 1) ctx e) := by
  intro ctx e st a st' h
  simp only [handle_export] at h
  split at h
  · simp at h
  split at h
  · simp at h
  split at h
  case _ f =>
    split at h
    · simp at h
    obtain ⟨tree, s1, h1, h2⟩ := bindR_eq_ok h
    have b1 := ihPN _ _ _ _ _ h1
    cases h2
    dsimp only
    omega
  · simp at h

/-- All the walk's mutual functions are balanced on success, for every
fuel bound. -/
theorem balance_all : ∀ fuel : Nat,
    (∀ ctx node, BalFun (process_node fuel ctx node)) ∧
    (∀ ctx l, BalFun (process_list fuel ctx l)) ∧
    (∀ ctx p, BalFun (get_scope fuel ctx p)) ∧
    (∀ ctx items acc, BalFun (get_scope_items fuel ctx items acc)) ∧
    (∀ ctx es acc, BalFun (process_entries fuel ctx es acc)) ∧
    (∀ ctx k v, BalFun (dispatch fuel ctx k v)) ∧
    (∀ ctx e, BalFun (handle_do fuel ctx e)) ∧
    (∀ ctx items acc, BalFun (do_items fuel ctx items acc)) ∧
    (∀ ctx e, BalFun (handle_foreach fuel ctx e)) ∧
    (∀ ctx e varName items acc, BalFun (foreach_items fuel ctx e varName items acc)) ∧
    (∀ ctx e, BalFun (handle_switch fuel ctx e)) ∧
    (∀ ctx e, BalFun (handle_if fuel ctx e)) ∧
    (∀ ctx e, BalFun (handle_import fuel ctx e)) ∧
    (∀ ctx e, BalFun (handle_module fuel ctx e)) ∧
    (∀ ctx e, BalFun (handle_function fuel ctx e)) ∧
    (∀ ctx e, BalFun (handle_call fuel ctx e)) ∧
    (∀ ctx e, BalFun (handle_export fuel ctx e)) := by
  intro fuel
  induction fuel with
  | zero =>
    refine ⟨?_, ?_, ?_, ?_, ?_, ?_, ?_, ?_, ?_, ?_, ?_, ?_, ?_, ?_, ?_, ?_, ?_⟩ <;>
      intro _ _ <;> first
        | (intro st a st' h; simp [process_node, process_list, get_scope, get_scope_items,
            process_entries, dispatch, handle_do, do_items, handle_foreach, foreach_items,
            handle_switch, handle_if, handle_import, handle_module, handle_function,
            handle_call, handle_export] at h)
        | (intro _ st a st' h; simp [get_scope_items, process_entries, dispatch, do_items] at h)
        | (intro _ _ _ st a st' h; simp [foreach_items] at h)
  | succ n ih =>
    obtain ⟨ihPN, ihPL, ihGS, ihGSI, ihPE, ihDP, ihDO, ihDOI, ihFE, ihFEI,
            ihSW, ihIF, ihIM, ihMO, ihFN, ihCA, ihEX⟩ := ih
    exact ⟨bal_process_node_step n ihGS ihPE ihPL,
           bal_process_list_step n ihPN ihPL,
           bal_get_scope_step n ihGSI,
           bal_get_scope_items_step n ihPN ihGSI,
           bal_process_entries_step n ihDP ihPE,
           bal_dispatch_step n ihPN ihDO ihFE ihSW ihIF ihIM ihMO ihFN ihCA ihEX,
           bal_handle_do_step n ihDOI,
           bal_do_items_step n ihPN ihDOI,
           bal_handle_foreach_step n ihFEI,
           bal_foreach_items_step n ihPN ihFEI,
           bal_handle_switch_step n ihPN,
           bal_handle_if_step n ihPN,
           bal_handle_import_step n ihPN,
           bal_handle_module_step n,
           bal_handle_function_step n,
           bal_handle_call_step n ihPN,
           bal_handle_export_step n ihPN⟩

-- --------------------------------------------------------------
-- The literal sentinel: quote / dequote (claim C5)
-- --------------------------------------------------------------

/-- Character-list prefix test, modelling `str.startswith`. -/
def startsWithChars : List Char → List Char → Bool
  | [], _ => true
  | _ :: _, [] => false
  | p :: ps, c :: cs => p = c && startsWithChars ps cs

/-- Strip a leading pattern, returning the remainder on success. -/
def stripStart : List Char → List Char → Option (List Char)
  | [], s => some s
  | _ :: _, [] => none
  | p :: ps, c :: cs => if p = c then stripStart ps cs else none

/-- Modelled from the spec: the literal sentinel `LITERAL_PREFIX`
(defined in `protein/util.py`, which is not under `src/`; §6 fixes it as
a printable marker, for example `#!literal` — the same marker named in
the `quote` docstring of `protein/global_context.py`). -/
def LITERAL_PREFIX : List Char := "#!literal".data

/-- `quote` from `protein/global_context.py`: mark a string as literal
by prepending the sentinel unless it is already present.  Strings are
modelled as character lists (the function raises `TypeError` on
non-strings, which the typed embedding excludes by construction). -/
def quote (value : List Char) : List Char :=
  if startsWithChars LITERAL_PREFIX value then value
  else LITERAL_PREFIX ++ value

/-- Modelled from the spec: the `dequote` filter paired with `quote`
(`protein/util.py`, not under `src/`; `global_context.py` imports it
from there and registers it in `GLOBAL_FILTERS`): §4.E/§6 — it strips
the sentinel and literal-parses the rest.  (`yamlpp/util.py` carries an
older helper of the same name that literal-parses without stripping;
that helper is dead code — its two call sites in `core.py` are
commented out — and is embedded separately as `dequote_yamlpp`.) -/
def dequote (s : List Char) : Option Node :=
  literal_eval (match stripStart LITERAL_PREFIX s with
    | some rest => rest
    | none => s)

/-- `dequote` from `yamlpp/util.py`: deserializes via `ast.literal_eval`
directly, without stripping the sentinel. -/
def dequote_yamlpp (s : List Char) : Option Node :=
  literal_eval s

-- --------------------------------------------------------------
-- Paths: os.path.join vs safe_path canonicalization (claim C3)
-- --------------------------------------------------------------

/-- Split a character list on the path separator. -/
def splitOnSlash : List Char → List (List Char)
  | [] => [[]]
  | c :: rest =>
    if c = '/' then [] :: splitOnSlash rest
    else
      match splitOnSlash rest with
      | [] => [[c]]
      | seg :: segs => (c :: seg) :: segs

/-- Canonicalize the segment list of an absolute POSIX path: empty and
`.` segments vanish, `..` removes the previous segment (at the root it
stays at the root). -/
def resolveSegs (segs : List (List Char)) : List (List Char) :=
  segs.foldl (fun acc seg =>
    if seg = [] ∨ seg = ['.'] then acc
    else if seg = ['.', '.'] then acc.dropLast
    else acc ++ [seg]) []

/-- Render an absolute path from its canonical segments. -/
def renderAbs (segs : List (List Char)) : List Char :=
  match segs with
  | [] => ['/']
  | _ => segs.foldl (fun acc s => acc ++ '/' :: s) []

/-- Modelled from the spec: `pathlib.Path.resolve()` (standard library)
restricted to absolute paths without symlinks — the canonicalization
step that §4.F.8 prescribes for export paths. -/
def resolvePath (p : String) : String :=
  String.mk (renderAbs (resolveSegs (splitOnSlash p.data)))

/-- Modelled from the spec: `pathlib.Path.parents` — every proper
ancestor of a canonical absolute path, down to the root. -/
def parentsOf (p : String) : List String :=
  let segs := resolveSegs (splitOnSlash p.data)
  (List.range segs.length).map (fun i => String.mk (renderAbs (segs.take i)))

/-- `safe_path` from `yamlpp/util.py`: resolve `root / pathname`, raise
`FileNotFoundError` when the candidate is neither the root nor inside
it (`root not in candidate.parents and candidate != root`), then raise
when the candidate does not exist.  Existence is checked against an
explicit list standing in for the filesystem. -/
def safe_path (existing : List String) (root : String) (pathname : String) : Except String String :=
  let candidate := resolvePath (pathJoin root pathname)
  if root ∈ parentsOf candidate ∨ candidate = root then
    if candidate ∈ existing then .ok candidate
    else .error ("Path " ++ candidate ++ " does not exist")
  else .error ("Path " ++ pathname ++ " cannot be higher than " ++ root)

-- --------------------------------------------------------------
-- The serializer tree and flatten (claims C9, C10)
-- --------------------------------------------------------------

mutual
/-- The ruamel round-trip tree that the serializer receives: plain
scalars, `ScalarString` wrappers (for example `DoubleQuotedScalarString`),
mappings (`CommentedMap`), sequences (`CommentedSeq`), and a fallback
for any other object (which `flatten` coerces to a string).  Mappings
and sequences use dedicated list types so that all recursion stays
structural. -/
inductive PyObj where
  | scalarString (s : String)
  | str (s : String)
  | int (n : Int)
  | bool (b : Bool)
  | none
  | mapping (entries : PyEntries)
  | seq (items : PyItems)
  | other (r : String)

inductive PyEntries where
  | nil
  | cons (k : PyObj) (v : PyObj) (t : PyEntries)

inductive PyItems where
  | nil
  | cons (h : PyObj) (t : PyItems)
end

mutual
/-- Python `repr()` on a serializer-tree value. -/
def pyReprP : PyObj → String
  | .scalarString s => "\x27" ++ s ++ "\x27"
  | .str s => "\x27" ++ s ++ "\x27"
  | .int n => toString n
  | .bool b => if b then "True" else "False"
  | .none => "None"
  | .mapping m => "\x7b" ++ pyReprPEntries m ++ "\x7d"
  | .seq l => "[" ++ pyReprPItems l ++ "]"
  | .other r => r

def pyReprPEntries : PyEntries → String
  | .nil => ""
  | .cons k v .nil => pyReprP k ++ ": " ++ pyReprP v
  | .cons k v t => pyReprP k ++ ": " ++ pyReprP v ++ ", " ++ pyReprPEntries t

def pyReprPItems : PyItems → String
  | .nil => ""
  | .cons h .nil => pyReprP h
  | .cons h t => pyReprP h ++ ", " ++ pyReprPItems t
end

/-- Python `str()` on a serializer-tree value (`str(k)` for mapping
keys, the fallback coercion of `flatten`, and `to_python`). -/
def pyStrP : PyObj → String
  | .scalarString s => s
  | .str s => s
  | v => pyReprP v

/-- Key equality in a flattened mapping: all its keys are plain strings
(`str(k)`), so Python dict key identity reduces to string equality. -/
def strKeyEq : PyObj → PyObj → Bool
  | .str a, .str b => a == b
  | _, _ => false

/-- Building a Python dict by successive assignment `d[str(k)] = v`:
an existing key keeps its position and takes the new value, a new key
is appended. -/
def entUpsert : PyEntries → PyObj → PyObj → PyEntries
  | .nil, k, v => .cons k v .nil
  | .cons k' v' t, k, v =>
    if strKeyEq k' k then .cons k' v t
    else .cons k' v' (entUpsert t k v)

mutual
/-- `flatten` from `yamlpp/util.py`: recursively convert a ruamel
round-trip tree into plain dicts, lists and scalars — `ScalarString`
wrappers unwrap to `str`, plain scalars pass through, a Mapping becomes
a dict comprehension keyed by `str(k)`, a Sequence maps over its items,
and anything else is coerced to `str(node)`. -/
def flatten : PyObj → PyObj
  | .scalarString s => .str s
  | .str s => .str s
  | .int n => .int n
  | .bool b => .bool b
  | .none => .none
  | .mapping kvs => .mapping (flattenEntries kvs .nil)
  | .seq l => .seq (flattenItems l)
  | .other r => .str (pyStrP (.other r))

/-- The dict comprehension of the Mapping branch of `flatten`. -/
def flattenEntries : PyEntries → PyEntries → PyEntries
  | .nil, acc => acc
  | .cons k v t, acc => flattenEntries t (entUpsert acc (.str (pyStrP k)) (flatten v))

/-- The list comprehension of the Sequence branch of `flatten`. -/
def flattenItems : PyItems → PyItems
  | .nil => .nil
  | .cons h t => .cons (flatten h) (flattenItems t)
end

-- --------------------------------------------------------------
-- serialize (claim C10)
-- --------------------------------------------------------------

/-- What a call to `serialize` produces: either serialized text, or — as
the function is written — a `ValueError` exception object handed back as
the return value (`return ValueError(...)`, not `raise`). -/
inductive SerializeResult where
  | text (s : String)
  | valueErrorObject (msg : String)

/-- `to_yaml` from `yamlpp/util.py`: the pure ruamel dump of the tree;
the dumper itself is an external collaborator and is a parameter. -/
def to_yaml (dumpYaml : PyObj → String) (tree : PyObj) : String :=
  dumpYaml tree

/-- `to_json` from `yamlpp/util.py`: flatten, then the external `json`
dump (the `json.loads` round-trip check of the source is a no-op on
success and is not modelled). -/
def to_json (dumpJson : PyObj → String) (tree : PyObj) : String :=
  dumpJson (flatten tree)

/-- `to_toml` from `yamlpp/util.py`: flatten, then the external tomlkit
dump. -/
def to_toml (dumpToml : PyObj → String) (tree : PyObj) : String :=
  dumpToml (flatten tree)

/-- `to_python` from `yamlpp/util.py`: flatten, then `str(plain)`. -/
def to_python (tree : PyObj) : String :=
  pyStrP (flatten tree)

/-- ASCII lowercasing, modelling `str.lower()` on format tags. -/
def asciiLower (s : String) : String :=
  String.mk (s.data.map (fun c =>
    if 'A' ≤ c ∧ c ≤ 'Z' then Char.ofNat (c.toNat + 32) else c))

/-- The `CONV_FORMATS` table of `yamlpp/util.py`, parameterized by the
three external dumpers. -/
def CONV_FORMATS (dY dJ dT : PyObj → String) : List (String × (PyObj → String)) :=
  [("yaml", to_yaml dY), ("json", to_json dJ), ("python", to_python), ("toml", to_toml dT)]

/-- `serialize` from `yamlpp/util.py`: a falsy (empty) format falls back
to `yaml`, otherwise the format is lowercased; an unknown format makes
the function `return` a `ValueError` object instead of raising it. -/
def serialize (dY dJ dT : PyObj → String) (tree : PyObj) (format : String) : SerializeResult :=
  let fmt := if format ≠ "" then asciiLower format else "yaml"
  match lookupStr (CONV_FORMATS dY dJ dT) fmt with
  | Option.none => .valueErrorObject ("Unsupported format " ++ fmt)
  | Option.some func => .text (func tree)

-- --------------------------------------------------------------
-- Lemmas for quote / dequote
-- --------------------------------------------------------------

/-- A text whose first character is `#` is not a valid literal: `#`
opens a Python comment, so the parse finds no expression. -/
theorem literal_eval_hash (cs : List Char) : literal_eval ('#' :: cs) = none := rfl

theorem startsWith_hash {s : List Char} (h : startsWithChars LITERAL_PREFIX s = true) :
    ∃ cs, s = '#' :: cs := by
  have hL : LITERAL_PREFIX = '#' :: "!literal".data := rfl
  rw [hL] at h
  cases s with
  | nil => simp [startsWithChars] at h
  | cons c cs =>
    simp only [startsWithChars, Bool.and_eq_true, decide_eq_true_eq] at h
    exact ⟨cs, by rw [h.1]⟩

theorem stripStart_append : ∀ p s : List Char, stripStart p (p ++ s) = some s := by
  intro p s
  induction p with
  | nil => rfl
  | cons c cs ih => simp [stripStart, ih]

theorem startsWithChars_append : ∀ p s : List Char, startsWithChars p (p ++ s) = true := by
  intro p s
  induction p with
  | nil => rfl
  | cons c cs ih => simp [startsWithChars, ih]

-- --------------------------------------------------------------
-- Lemmas for flatten
-- --------------------------------------------------------------

/-- Entries of a flattened mapping: string keys, flatten-fixed values. -/
def flatEntries : PyEntries → Prop
  | .nil => True
  | .cons k v t => (∃ s, k = .str s) ∧ flatten v = v ∧ flatEntries t

/-- Python `key in d` over the dedicated entry list. -/
def hasKeyE : PyEntries → PyObj → Bool
  | .nil, _ => false
  | .cons k _ t, key => strKeyEq k key || hasKeyE t key

/-- No two entries share a key. -/
def nodupE : PyEntries → Prop
  | .nil => True
  | .cons k _ t => hasKeyE t k = false ∧ nodupE t

/-- No key of the first list occurs in the second. -/
def disjE : PyEntries → PyEntries → Prop
  | .nil, _ => True
  | .cons k _ t, acc => hasKeyE acc k = false ∧ disjE t acc

def entAppend : PyEntries → PyEntries → PyEntries
  | .nil, e => e
  | .cons k v t, e => .cons k v (entAppend t e)

theorem strKeyEq_symm (a b : PyObj) : strKeyEq a b = strKeyEq b a := by
  cases a <;> cases b <;> try rfl
  rename_i x y
  show (x == y) = (y == x)
  by_cases h : x = y
  · subst h; rfl
  · rw [beq_eq_false_iff_ne.mpr h, beq_eq_false_iff_ne.mpr (Ne.symm h)]

theorem entAppend_nil_right : ∀ es : PyEntries, entAppend es .nil = es
  | .nil => rfl
  | .cons k v t => by simp [entAppend, entAppend_nil_right t]

theorem entUpsert_absent : ∀ (acc : PyEntries) (k v : PyObj),
    hasKeyE acc k = false →
    entUpsert acc k v = entAppend acc (.cons k v .nil)
  | .nil, k, v, _ => rfl
  | .cons k' v' t, k, v, h => by
    simp only [hasKeyE, Bool.or_eq_false_iff] at h
    simp [entUpsert, entAppend, h.1, entUpsert_absent t k v h.2]

theorem hasKeyE_entUpsert : ∀ (t : PyEntries) (k key v : PyObj),
    hasKeyE t key = false → strKeyEq k key = false →
    hasKeyE (entUpsert t k v) key = false
  | .nil, k, key, v, _, h2 => by simp [entUpsert, hasKeyE, h2]
  | .cons k' v' t', k, key, v, h1, h2 => by
    simp only [hasKeyE, Bool.or_eq_false_iff] at h1
    by_cases hk : strKeyEq k' k = true
    · simp [entUpsert, hk, hasKeyE, h1.1, h1.2]
    · simp only [Bool.not_eq_true] at hk
      simp [entUpsert, hk, hasKeyE, h1.1, hasKeyE_entUpsert t' k key v h1.2 h2]

theorem nodupE_entUpsert : ∀ (acc : PyEntries) (k v : PyObj),
    nodupE acc → nodupE (entUpsert acc k v)
  | .nil, k, v, _ => by simp [entUpsert, nodupE, hasKeyE]
  | .cons k' v' t, k, v, h => by
    obtain ⟨h1, h2⟩ := h
    by_cases hk : strKeyEq k' k = true
    · simpa [entUpsert, hk, nodupE, h1] using h2
    · simp only [Bool.not_eq_true] at hk
      simp only [entUpsert, hk, Bool.false_eq_true, if_false, nodupE]
      exact ⟨hasKeyE_entUpsert t k k' v h1 ((strKeyEq_symm k k').trans hk),
        nodupE_entUpsert t k v h2⟩

theorem flatEntries_entUpsert : ∀ (acc : PyEntries) (k v : PyObj),
    flatEntries acc → (∃ s, k = .str s) → flatten v = v →
    flatEntries (entUpsert acc k v)
  | .nil, k, v, _, hk, hv => ⟨hk, hv, trivial⟩
  | .cons k' v' t, k, v, h, hk, hv => by
    obtain ⟨h1, h2, h3⟩ := h
    by_cases he : strKeyEq k' k = true
    · simp only [entUpsert, he, if_true, flatEntries]
      exact ⟨h1, hv, h3⟩
    · simp only [Bool.not_eq_true] at he
      simp only [entUpsert, he, Bool.false_eq_true, if_false, flatEntries]
      exact ⟨h1, h2, flatEntries_entUpsert t k v h3 hk hv⟩

theorem disjE_nil : ∀ es : PyEntries, disjE es .nil
  | .nil => trivial
  | .cons _k _v t => ⟨rfl, disjE_nil t⟩

theorem hasKeyE_entAppend : ∀ (a b : PyEntries) (key : PyObj),
    hasKeyE (entAppend a b) key = (hasKeyE a key || hasKeyE b key)
  | .nil, _, _ => rfl
  | .cons k v t, b, key => by
    simp [entAppend, hasKeyE, hasKeyE_entAppend t b key, Bool.or_assoc]

theorem disjE_entAppend_single : ∀ (t acc : PyEntries) (k v : PyObj),
    disjE t acc → hasKeyE t k = false →
    disjE t (entAppend acc (.cons k v .nil))
  | .nil, _, _, _, _, _ => trivial
  | .cons k'' v'' t', acc, k, v, hd, hk => by
    obtain ⟨h1, h2⟩ := hd
    simp only [hasKeyE, Bool.or_eq_false_iff] at hk
    refine ⟨?_, disjE_entAppend_single t' acc k v h2 hk.2⟩
    rw [hasKeyE_entAppend]
    simp [hasKeyE, h1, (strKeyEq_symm k k'').trans hk.1]

theorem entAppend_assoc : ∀ a b c : PyEntries,
    entAppend (entAppend a b) c = entAppend a (entAppend b c)
  | .nil, _, _ => rfl
  | .cons k v t, b, c => by simp [entAppend, entAppend_assoc t b c]

/-- Re-flattening already-flat, duplicate-free entries inserts them
verbatim after the accumulator. -/
theorem flattenEntries_self : ∀ es acc : PyEntries,
    flatEntries es → nodupE es → disjE es acc →
    flattenEntries es acc = entAppend acc es
  | .nil, acc, _, _, _ => by simp [flattenEntries, entAppend_nil_right]
  | .cons k v t, acc, hf, hn, hd => by
    obtain ⟨⟨s, hks⟩, hv, hft⟩ := hf
    obtain ⟨hn1, hn2⟩ := hn
    obtain ⟨hd1, hd2⟩ := hd
    have hkey : PyObj.str (pyStrP k) = k := by rw [hks]; rfl
    simp only [flattenEntries, hkey, hv]
    rw [entUpsert_absent acc k v hd1]
    rw [flattenEntries_self t (entAppend acc (.cons k v .nil)) hft hn2
      (disjE_entAppend_single t acc k v hd2 hn1)]
    rw [entAppend_assoc]
    rfl

mutual
/-- Flatten always produces flat, duplicate-free mapping entries. -/
theorem flattenEntries_good : ∀ (es acc : PyEntries),
    flatEntries acc → nodupE acc →
    flatEntries (flattenEntries es acc) ∧ nodupE (flattenEntries es acc)
  | .nil, acc, hf, hn => ⟨hf, hn⟩
  | .cons k v t, acc, hf, hn => by
    simp only [flattenEntries]
    exact flattenEntries_good t _
      (flatEntries_entUpsert acc (.str (pyStrP k)) (flatten v) hf ⟨pyStrP k, rfl⟩
        (flatten_idem_aux v))
      (nodupE_entUpsert acc (.str (pyStrP k)) (flatten v) hn)

theorem flatten_idem_aux : ∀ t : PyObj, flatten (flatten t) = flatten t
  | .scalarString _ => rfl
  | .str _ => rfl
  | .int _ => rfl
  | .bool _ => rfl
  | .none => rfl
  | .mapping kvs => by
    obtain ⟨hf, hn⟩ := flattenEntries_good kvs .nil trivial trivial
    simp only [flatten]
    rw [flattenEntries_self (flattenEntries kvs .nil) .nil hf hn (disjE_nil _)]
    rfl
  | .seq l => by simp only [flatten, flattenItems_idem_aux l]
  | .other _ => rfl

theorem flattenItems_idem_aux : ∀ l : PyItems, flattenItems (flattenItems l) = flattenItems l
  | .nil => rfl
  | .cons h t => by simp only [flattenItems, flatten_idem_aux h, flattenItems_idem_aux t]
end

-- --------------------------------------------------------------
-- Spec-side description of the result combination (claim C7)
-- --------------------------------------------------------------

/-- Written from the spec's words (§4.F), for refinement comparison:
the contribution of one handler result to the accumulating
result-mapping — a Mapping result is merged in, anything else leaves it
alone. -/
def spec_map_step (d : List (Node × Node)) (r : Node) : List (Node × Node) :=
  match r with
  | .map m => dictUpdate d m
  | _ => d

/-- Written from the spec's words (§4.F): the contribution of one
handler result to the accumulating result-list — a Sequence result
appends its elements, a scalar result appends itself, a Mapping or
`None` result contributes nothing. -/
def spec_list_step (l : List Node) (r : Node) : List Node :=
  match r with
  | .null => l
  | .map _ => l
  | .seq xs => l ++ xs
  | v => l ++ [v]

/-- Written from the spec's words: the result-mapping accumulated over
all handler results. -/
def spec_result_mapping (rs : List Node) : List (Node × Node) :=
  rs.foldl spec_map_step []

/-- Written from the spec's words: the result-list accumulated over all
handler results. -/
def spec_result_list (rs : List Node) : List Node :=
  rs.foldl spec_list_step []

/-- Written from the spec's words: the combined return value — the
mapping wins when non-empty, else the list when non-empty, else
nothing. -/
def spec_combination (rs : List Node) : Node :=
  match spec_result_mapping rs, spec_result_list rs with
  | d :: ds, _ => .map (d :: ds)
  | [], x :: xs => .seq (x :: xs)
  | [], [] => .null

theorem combineResult_split (acc : List (Node × Node) × List Node) (r : Node) :
    combineResult acc r = (spec_map_step acc.1 r, spec_list_step acc.2 r) := by
  obtain ⟨d, l⟩ := acc
  cases r <;> rfl

theorem foldl_combineResult_split : ∀ (rs : List Node) (d : List (Node × Node)) (l : List Node),
    rs.foldl combineResult (d, l) = (rs.foldl spec_map_step d, rs.foldl spec_list_step l) := by
  intro rs
  induction rs with
  | nil => intro d l; rfl
  | cons r rest ih =>
    intro d l
    simp only [List.foldl_cons, combineResult_split]
    exact ih _ _



-- --------------------------------------------------------------
-- Concrete fixtures for the end-to-end runs
-- --------------------------------------------------------------

/-- A context whose source directory is `/src`, with no importable
files or modules. -/
def ctx0 : Ctx := ⟨"/src", [], []⟩

/-- The stack as `_reset_environment` leaves it: the Jinja2 default
globals (external, modelled as an empty base frame) with the
interpreter's `GLOBAL_CONTEXT` (`getenv`) pushed on top; the walk
instrumentation starts at zero. -/
def st0 : St := ⟨[[(.str "getenv", .hostFn "getenv")], []], 0, 0, []⟩

/-- The S2 late-binding program of the spec (§8) and of
`test_closure_captures_definition_environment`:
`test: \x7b.do: [\x7b.context: \x7bx: 10\x7d\x7d, \x7b.function: get_x\x7d,
\x7b.define: \x7bx: 999\x7d\x7d, \x7b.call: get_x\x7d]\x7d`. -/
def s2Tree : Node :=
  .map [(.str "test", .map [(.str ".do", .seq [
    .map [(.str ".context", .map [(.str "x", .int 10)])],
    .map [(.str ".function", .map [(.str ".name", .str "get_x"), (.str ".args", .seq []),
          (.str ".do", .map [(.str "value", .str "\x7b\x7b x \x7d\x7d")])])],
    .map [(.str ".define", .map [(.str "x", .int 999)])],
    .map [(.str ".call", .map [(.str ".name", .str "get_x"), (.str ".args", .seq [])])]
  ])])]

/-- A mapping that pushes a `.context` frame and then fails: the `.call`
target does not exist, so the error propagates before the pop runs. -/
def contextThenErrorTree : Node :=
  .map [(.str ".context", .map [(.str "x", .int 1)]),
        (.str ".call", .map [(.str ".name", .str "nope"), (.str ".args", .seq [])])]

/-- A healthy program (the S1 function-call scenario, one call) used to
witness the balance theorem on a successful walk. -/
def s1Tree : Node :=
  .map [(.str "test", .map [(.str ".do", .seq [
    .map [(.str ".function", .map [(.str ".name", .str "add"),
          (.str ".args", .seq [.str "a", .str "b"]),
          (.str ".do", .map [(.str "value", .str "\x7b\x7b a \x7d\x7d")])])],
    .map [(.str ".call", .map [(.str ".name", .str "add"), (.str ".args", .seq [.int 3, .int 4])])]
  ])])]

/-- A mapping whose only entry is a `.define` block. -/
def defineTree : Node := .map [(.str ".define", .map [(.str "x", .int 1)])]

/-- A `.switch` whose `.default` sits, as the spec and the handler's own
docstring place it, as a sibling of `.cases`; no case matches. -/
def switchSiblingDefaultTree : Node :=
  .map [(.str ".switch", .map [(.str ".expr", .str "2"),
                               (.str ".cases", .map [(.int 1, .str "one")]),
                               (.str ".default", .str "dflt")])]

/-- The same `.switch` with `.default` placed inside `.cases` instead —
the spot the code actually consults. -/
def switchInnerDefaultTree : Node :=
  .map [(.str ".switch", .map [(.str ".expr", .str "2"),
                               (.str ".cases", .map [(.int 1, .str "one"),
                                                     (.str ".default", .str "dflt")])])]

/-- An `.export` whose `.filename` climbs out of the source directory. -/
def exportEscapeTree : Node :=
  .map [(.str ".export", .map [(.str ".filename", .str "../evil.yaml"),
                               (.str ".content", .map [(.str "a", .int 5)])])]

/-- A stack holding one two-argument function `add`, for exercising the
arity check of `handle_call`. -/
def stWithAdd : St :=
  ⟨[[(.str "add", .map [(.str ".name", .str "add"),
      (.str ".args", .seq [.str "a", .str "b"]),
      (.str ".do", .map [(.str "value", .str "v")])])]], 0, 0, []⟩

/-- Stand-ins for the three external dumpers of `CONV_FORMATS`. -/
def dumpYamlFix : PyObj → String := fun _ => "YAMLTEXT"

def dumpJsonFix : PyObj → String := fun _ => "JSONTEXT"

def dumpTomlFix : PyObj → String := fun _ => "TOMLTEXT"

-- --------------------------------------------------------------
-- The claims
-- --------------------------------------------------------------

/-- C1: the spec and the repository's own test expect the S2 program
(`x:10; def get_x; x:999; call get_x`) to render `999` by late binding.
Evaluating the embedded interpreter at that program shows the code
instead aborts with an undefined-variable error: `process_node` has no
`.define` branch (the entry falls through as a plain key) and the
`.context` frame of a sibling list element is popped before the call,
so `x` is unbound inside the call. -/
theorem late_binding_s2_run :
    (process_node 64 ctx0 s2Tree st0).1 =
      .error (.valueError
        "Variable error in string node \x27\x7b\x7b x \x7d\x7d\x27: \x27x\x27 is undefined") :=
  rfl

/-- C2 (amended): on every walk that terminates normally the number of
scope-stack pops equals the number of pushes; on an error exit the
balance can fail, because the pops in `process_node` and
`handle_foreach` are not protected by a finally block (see the
counterexample). -/
theorem scope_balance_on_success (fuel : Nat) (ctx : Ctx) (node : Node) (st : St)
    (r : Node) (st' : St) (h : process_node fuel ctx node st = (.ok r, st')) :
    st'.pushes + st.pops = st.pushes + st'.pops :=
  (balance_all fuel).1 ctx node st r st' h

/-- C2 counterexample: a mapping whose `.context` push is followed by a
failing `.call` ends the walk with one push and zero pops — the pop
after the entry loop is skipped on the error path, in contradiction
with the claim's "whether it terminates normally or by raising". -/
theorem scope_balance_error_counterexample :
    (process_node 32 ctx0 contextThenErrorTree st0).1 =
      .error (.yamlpp .KEY "Function \x27nope\x27 not found!") ∧
    (process_node 32 ctx0 contextThenErrorTree st0).2.pushes = 1 ∧
    (process_node 32 ctx0 contextThenErrorTree st0).2.pops = 0 :=
  ⟨rfl, rfl, rfl⟩

/-- C2 witness: a successful end-to-end run (the S1 function-call
scenario) at which the balance theorem applies concretely. -/
theorem scope_balance_on_success_witness :
    (process_node 64 ctx0 s1Tree st0).2.pushes + st0.pops =
      st0.pushes + (process_node 64 ctx0 s1Tree st0).2.pops :=
  scope_balance_on_success 64 ctx0 s1Tree st0 _ _ rfl

/-- C3: the claim says an `.export` `.filename` is canonicalized and an
escape from the source directory fails with a path-escape error before
any write.  Evaluating the embedded `handle_export` at
`.filename: ../evil.yaml` shows the code returns successfully after
logging a write to `/src/../evil.yaml` — a path whose canonical form
`/evil.yaml` lies outside `/src` — while the repository's own
`safe_path` helper (never invoked by `handle_export`) rejects exactly
this input. -/
theorem export_path_unchecked_run :
    (process_node 16 ctx0 exportEscapeTree st0).1 = .ok .null ∧
    (process_node 16 ctx0 exportEscapeTree st0).2.written =
      [("/src/../evil.yaml", .map [(.str "a", .int 5)])] ∧
    resolvePath "/src/../evil.yaml" = "/evil.yaml" ∧
    ¬("/src" ∈ parentsOf "/evil.yaml" ∨ "/evil.yaml" = "/src") ∧
    safe_path [] "/src" "../evil.yaml" =
      .error "Path ../evil.yaml cannot be higher than /src" :=
  ⟨rfl, rfl, rfl, by decide, rfl⟩

/-- C4: the claim (and the repository's tests) give `.define` the
semantics "update the top frame, contribute nothing to the output".
Evaluating the dispatcher at a `.define` entry shows the code has no
`.define` branch: the entry is emitted verbatim as output and the
interpreter state — the scope stack included — is left untouched. -/
theorem define_passthrough_run :
    process_node 16 ctx0 defineTree st0 =
      (.ok (.map [(.str ".define", .map [(.str "x", .int 1)])]), st0) :=
  rfl

/-- C5: `quote` (from `protein/global_context.py`) is idempotent, and
composing the spec-modelled `dequote` filter with it recovers
`literal_eval` on every string that is a valid literal; a valid literal
cannot begin with the sentinel, whose first character `#` opens a
Python comment. -/
theorem quote_dequote_roundtrip :
    (∀ s : List Char, quote (quote s) = quote s) ∧
    (∀ s : List Char, (literal_eval s).isSome = true → dequote (quote s) = literal_eval s) := by
  constructor
  · intro s
    by_cases h : startsWithChars LITERAL_PREFIX s = true
    · simp [quote, h]
    · simp only [Bool.not_eq_true] at h
      simp [quote, h, startsWithChars_append]
  · intro s hs
    have hns : startsWithChars LITERAL_PREFIX s = false := by
      cases hq : startsWithChars LITERAL_PREFIX s
      · rfl
      · obtain ⟨cs, rfl⟩ := startsWith_hash hq
        rw [literal_eval_hash] at hs
        simp at hs
    simp [quote, hns, dequote, stripStart_append]

/-- C5 witness: the round trip at the concrete literal `123`. -/
theorem quote_dequote_roundtrip_witness :
    dequote (quote "123".data) = literal_eval "123".data :=
  quote_dequote_roundtrip.2 "123".data rfl

/-- C6: a `.call` whose `.name` is not on the stack fails with the
`KeyNotFound` `YAMLppError` raised from the call entry, and a `.call`
to a function whose formal-argument count differs from the supplied
count fails with the `ArgumentMismatch` `YAMLppError`. -/
theorem call_error_kinds (fuel : Nat) (ctx : Ctx) (st : St) (name : String)
    (callArgs fnFormals : List Node) (fnBody : Node) :
    (stackLookup st.frames (.str name) = none →
      handle_call (fuel + 1) ctx
          ⟨.str ".call", .map [(.str ".name", .str name), (.str ".args", .seq callArgs)]⟩ st =
        (.error (.yamlpp .KEY ("Function \x27" ++ name ++ "\x27 not found!")), st)) ∧
    (stackLookup st.frames (.str name) =
        some (.map [(.str ".name", .str name), (.str ".args", .seq fnFormals),
                    (.str ".do", fnBody)]) →
      callArgs.length ≠ fnFormals.length →
      handle_call (fuel + 1) ctx
          ⟨.str ".call", .map [(.str ".name", .str name), (.str ".args", .seq callArgs)]⟩ st =
        (.error (.yamlpp .ARGUMENTS ("No of arguments not matching, expected " ++
          toString fnFormals.length ++ ", found " ++ toString callArgs.length)), st)) := by
  constructor
  · intro h
    simp [handle_call, entryGet, pyLookup, pyEq, h, pyStr]
  · intro h hne
    simp [handle_call, entryGet, pyLookup, pyEq, h, pyLen, hne]

/-- C6 witness: the two failure kinds at concrete calls — an undefined
function `nope`, and the two-argument `add` called with one argument. -/
theorem call_error_kinds_witness :
    handle_call 4 ctx0
        ⟨.str ".call", .map [(.str ".name", .str "nope"), (.str ".args", .seq [])]⟩ st0 =
      (.error (.yamlpp .KEY "Function \x27nope\x27 not found!"), st0) ∧
    handle_call 4 ctx0
        ⟨.str ".call", .map [(.str ".name", .str "add"), (.str ".args", .seq [.int 1])]⟩
        stWithAdd =
      (.error (.yamlpp .ARGUMENTS "No of arguments not matching, expected 2, found 1"),
        stWithAdd) :=
  ⟨(call_error_kinds 3 ctx0 st0 "nope" [] [] .null).1 rfl,
   (call_error_kinds 3 ctx0 stWithAdd "add" [.int 1] [.str "a", .str "b"]
      (.map [(.str "value", .str "v")])).2 rfl (by decide)⟩

/-- C7: the result combination of the Mapping dispatcher — the left
fold of `combineResult` finished by `finalizeResults`, exactly as
`process_node` uses it — coincides with the spec's description: mapping
results merge into a result-mapping, sequence and scalar results go to
a result-list, the non-empty one is returned, and the mapping wins when
both are non-empty. -/
theorem combination_matches_spec :
    ∀ rs : List Node, finalizeResults (rs.foldl combineResult ([], [])) = spec_combination rs := by
  intro rs
  rw [foldl_combineResult_split]
  show finalizeResults (spec_result_mapping rs, spec_result_list rs) = spec_combination rs
  unfold spec_combination
  cases hm : spec_result_mapping rs <;> cases hl : spec_result_list rs <;>
    simp [finalizeResults]

/-- C8: the spec and the handler's own docstring place `.default` as a
sibling of `.cases` inside the `.switch` block.  Evaluating the
embedded handler shows the code instead reads `.default` from inside
the `.cases` mapping: with a sibling `.default` and no matching case
the entry is silently dropped (`None`), while the same `.default`
moved inside `.cases` is evaluated. -/
theorem switch_sibling_default_ignored_run :
    process_node 16 ctx0 switchSiblingDefaultTree st0 = (.ok .null, st0) ∧
    (process_node 16 ctx0 switchInnerDefaultTree st0).1 = .ok (.seq [.str "dflt"]) :=
  ⟨rfl, rfl⟩

/-- C9: `flatten` is idempotent on every serializer tree of mappings,
sequences and scalars (ScalarString wrappers and foreign objects
included). -/
theorem flatten_idempotent : ∀ t : PyObj, flatten (flatten t) = flatten t :=
  flatten_idem_aux

/-- C10 (amended): for every non-empty format string whose lowercased
form is none of `yaml`, `json`, `toml`, `python`, `serialize` returns
normally with a `ValueError` exception object as its value (the source
writes `return ValueError(...)`, not `raise`).  The empty string is
excluded: Python's falsy check sends it to the `yaml` default (see the
counterexample). -/
theorem serialize_unknown_format_returns_valueerror
    (dY dJ dT : PyObj → String) (tree : PyObj) (fmt : String)
    (h0 : fmt ≠ "") (h1 : asciiLower fmt ≠ "yaml") (h2 : asciiLower fmt ≠ "json")
    (h3 : asciiLower fmt ≠ "python") (h4 : asciiLower fmt ≠ "toml") :
    serialize dY dJ dT tree fmt =
      .valueErrorObject ("Unsupported format " ++ asciiLower fmt) := by
  simp [serialize, CONV_FORMATS, lookupStr, h0,
    Ne.symm h1, Ne.symm h2, Ne.symm h3, Ne.symm h4]

/-- C10 counterexample: the empty string names none of the four
formats, yet `serialize` treats it as falsy, falls back to `yaml` and
returns serialized text rather than a `ValueError` object. -/
theorem serialize_empty_format_counterexample :
    serialize dumpYamlFix dumpJsonFix dumpTomlFix (.int 5) "" = .text "YAMLTEXT" :=
  rfl

/-- C10 witness: the amended theorem at the concrete format `xml`. -/
theorem serialize_unknown_format_witness :
    serialize dumpYamlFix dumpJsonFix dumpTomlFix (.int 5) "xml" =
      .valueErrorObject "Unsupported format xml" :=
  serialize_unknown_format_returns_valueerror dumpYamlFix dumpJsonFix dumpTomlFix (.int 5) "xml"
    (by decide) (by decide) (by decide) (by decide) (by decide)

end Yamlpp
